import Mathlib

/-!
Verification of the iperf3 WebUI front-end (gauge scaling, bandwidth parsing,
stats/quality rendering and the session controller) against its specification.

The JavaScript sources are shallowly embedded: JS numbers become `ℚ`
(the values handled here are finite decimals; `NaN` results are modelled
with `Option`), strings become `String`/`List Char`, and the DOM/stream
side effects of the controller become an explicit action trace applied to
an explicit session state.
-/

namespace LanTool

/-! ## Character and string utilities (models of the JS primitives used) -/

/-- ASCII part of the JS whitespace class `\s` (and of `String.prototype.trim`).
The inputs treated in this development only ever contain these. -/
def isJsSpace (c : Char) : Bool :=
  c = ' ' || c = '\t' || c = '\n' || c = '\r' || c = '\x0b' || c = '\x0c'

/-- JS `String.prototype.trim` on a character list. -/
def trimChars (cs : List Char) : List Char :=
  ((cs.dropWhile isJsSpace).reverse.dropWhile isJsSpace).reverse

/-- JS `String.prototype.trim`. -/
def jsTrim (s : String) : String :=
  (trimChars s.toList).asString

/-- ASCII lower-casing, the fragment of JS case folding exercised by the
case-insensitive regexes modelled below (their letters are all ASCII). -/
def lowerChar (c : Char) : Char :=
  if 'A' ≤ c ∧ c ≤ 'Z' then Char.ofNat (c.toNat + 32) else c

/-- ASCII upper-casing (JS `toUpperCase` on the one-letter unit captures). -/
def upperChar (c : Char) : Char :=
  if 'a' ≤ c ∧ c ≤ 'z' then Char.ofNat (c.toNat - 32) else c

/-- Does `pat` occur as a contiguous substring of `hay`? -/
def listContains (hay pat : List Char) : Bool :=
  hay.tails.any (fun t => pat.isPrefixOf t)

/-- Case-insensitive substring test. -/
def containsCI (s pat : String) : Bool :=
  listContains (s.toList.map lowerChar) (pat.toList.map lowerChar)

/-! ## Gauge scale model (`gauge.js`, `updateGauge`)

`updateGauge` only ever grows the scale: when a sample exceeds 80% of the
current `maxValue` it recomputes the scale from the candidate
`value * 1.2` (or `1` for non-positive values), rounded up to a multiple
of a step taken from `{1, 2, 5} * 10^⌊log10(candidate/5)⌋`. -/

/-- `let newMax = value > 0 ? value * 1.2 : 1` in `updateGauge`. -/
def gaugeCandidate (value : ℚ) : ℚ :=
  if 0 < value then value * (12 / 10) else 1

/-- `Math.pow(10, Math.floor(Math.log10(newMax / 5)))` in `updateGauge`. -/
def gaugeMagnitude (newMax : ℚ) : ℚ :=
  (10 : ℚ) ^ Int.log 10 (newMax / 5)

/-- The step chosen by `updateGauge`: the loop over `niceSteps = [1, 2, 5]`
takes the first `s * magnitude` with `newMax / (s * magnitude) < 6`; the
`step` variable is initialised to `5 * magnitude`, so the `s = 5` test and
the loop falling through produce the same value and collapse into the
final else. -/
def niceStepFor (newMax : ℚ) : ℚ :=
  if newMax / (1 * gaugeMagnitude newMax) < 6 then 1 * gaugeMagnitude newMax
  else if newMax / (2 * gaugeMagnitude newMax) < 6 then 2 * gaugeMagnitude newMax
  else 5 * gaugeMagnitude newMax

/-- `gauge.maxValue = Math.ceil(newMax / step) * step`. -/
def roundUpToStep (newMax step : ℚ) : ℚ :=
  ((⌈newMax / step⌉ : ℤ) : ℚ) * step

/-- The `maxValue` after one `updateGauge(value)` call
(`gauge.js` lines 169-184). -/
def updateGaugeMax (maxValue value : ℚ) : ℚ :=
  if maxValue * (8 / 10) < value then
    roundUpToStep (gaugeCandidate value) (niceStepFor (gaugeCandidate value))
  else maxValue

/-- `const numLabels = Math.round(gauge.maxValue / step)`: the number of
labelled gradations drawn for a freshly expanded scale. -/
def gaugeNumLabels (maxValue step : ℚ) : ℤ :=
  round (maxValue / step)

/-- The gauge `maxValue` after feeding a whole run of samples. -/
def runGauge (initialMax : ℚ) (samples : List ℚ) : ℚ :=
  samples.foldl updateGaugeMax initialMax

/-- The mutable state owned by `gauge.js`. -/
structure GaugeState where
  maxValue : ℚ
  value : ℚ
  hasRealValue : Bool
  sweeping : Bool
deriving Repr, DecidableEq

/-- `initGauge`: fresh gauge at 0 with the given initial scale
(sweep running when requested). -/
def initGaugeState (initialMax : ℚ) (doSweep : Bool) : GaugeState :=
  { maxValue := initialMax, value := 0, hasRealValue := false, sweeping := doSweep }

/-- `updateGauge(value)`: stops any sweep, expands the scale per
`updateGaugeMax`, and moves the needle to `value`.  (`hasRealValue`
becomes `Number.isFinite(value)`, which is true of every rational.) -/
def updateGauge (g : GaugeState) (value : ℚ) : GaugeState :=
  { maxValue := updateGaugeMax g.maxValue value
    value := value
    hasRealValue := true
    sweeping := false }

/-- `resetGauge()`: needle back to 0; the scale (`maxValue`) is untouched. -/
def resetGauge (g : GaugeState) : GaugeState :=
  { g with hasRealValue := false, sweeping := false, value := 0 }

/-! ## Bandwidth parsing (`runTest.js`, `toSelectedUnits` / `extractBandwidth`)

`extractBandwidth` first recognises pure signed decimals (the backend's
pre-normalised numbers, including the `-1` end marker) and otherwise runs
`matchAll` with
`/([0-9]+(?:\.[0-9]+)?)\s*([KMG])?\s*(?:bits\/sec|bit\/s|bits\/s|bit\/sec)/gi`,
keeping the last match.  The regex is embedded as a deterministic
maximal-munch matcher: each quantified piece is greedy and no piece can
consume a character the following pieces could need, so backtracking never
changes the outcome. -/

def isKMG (c : Char) : Bool :=
  c = 'K' || c = 'M' || c = 'G' || c = 'k' || c = 'm' || c = 'g'

/-- Strip `pat` from the front of `cs`, comparing case-insensitively;
returns the remainder on success. -/
def stripCI : List Char → List Char → Option (List Char)
  | [], rest => some rest
  | _ :: _, [] => none
  | p :: ps, c :: cs => if lowerChar c = lowerChar p then stripCI ps cs else none

/-- The regex alternation `(?:bits\/sec|bit\/s|bits\/s|bit\/sec)`, tried in
source order. -/
def stripUnitWord (cs : List Char) : Option (List Char) :=
  match stripCI "bits/sec".toList cs with
  | some r => some r
  | none =>
    match stripCI "bit/s".toList cs with
    | some r => some r
    | none =>
      match stripCI "bits/s".toList cs with
      | some r => some r
      | none => stripCI "bit/sec".toList cs

/-- One match of the bandwidth regex: capture 1 (the decimal literal) and
capture 2 (the optional K/M/G letter). -/
structure BwMatch where
  numChars : List Char
  pfx : Option Char
deriving Repr, DecidableEq

/-- Attempt the bandwidth regex at the head of `cs`; on success also return
the characters following the matched substring. -/
def matchAt (cs : List Char) : Option (BwMatch × List Char) :=
  let ds := cs.takeWhile Char.isDigit
  let r1 := cs.dropWhile Char.isDigit
  if ds.isEmpty then none else
  let fracOk : Bool :=
    decide (r1.head? = some '.') && !(r1.tail.takeWhile Char.isDigit).isEmpty
  let numChars := if fracOk then ds ++ '.' :: r1.tail.takeWhile Char.isDigit else ds
  let r2 := if fracOk then r1.tail.dropWhile Char.isDigit else r1
  let r3 := r2.dropWhile isJsSpace
  let hasPfx : Bool :=
    match r3.head? with
    | some c => isKMG c
    | none => false
  let pfxC : Option Char := if hasPfx then r3.head? else none
  let r4 := if hasPfx then r3.tail else r3
  let r5 := r4.dropWhile isJsSpace
  match stripUnitWord r5 with
  | some r6 => some (⟨numChars, pfxC⟩, r6)
  | none => none

theorem length_dropWhile_le (p : Char → Bool) (l : List Char) :
    (l.dropWhile p).length ≤ l.length := by
  induction l with
  | nil => simp [List.dropWhile]
  | cons c cs ih =>
    by_cases h : p c
    · simp only [List.dropWhile, h]
      exact Nat.le_succ_of_le ih
    · simp [List.dropWhile, h]

theorem length_tail_le (l : List Char) : l.tail.length ≤ l.length := by
  cases l <;> simp

theorem stripCI_length_le (p cs r : List Char) (h : stripCI p cs = some r) :
    r.length ≤ cs.length := by
  induction p generalizing cs with
  | nil =>
    simp only [stripCI, Option.some.injEq] at h
    exact h ▸ le_refl _
  | cons x xs ih =>
    cases cs with
    | nil => exact absurd h (by simp [stripCI])
    | cons c cs' =>
      simp only [stripCI] at h
      split at h
      · exact le_trans (ih cs' h) (Nat.le_succ _)
      · exact absurd h (by simp)

theorem stripUnitWord_length_le (cs r : List Char) (h : stripUnitWord cs = some r) :
    r.length ≤ cs.length := by
  unfold stripUnitWord at h
  repeat' split at h
  all_goals
    first
    | (cases h; exact stripCI_length_le _ _ _ (by assumption))
    | exact stripCI_length_le _ _ _ h
    | exact absurd h (by simp)

theorem matchAt_length {cs rest : List Char} {m : BwMatch}
    (h : matchAt cs = some (m, rest)) : rest.length < cs.length := by
  unfold matchAt at h
  by_cases hempty : (cs.takeWhile Char.isDigit).isEmpty
  · simp [hempty] at h
  · simp only [hempty, Bool.false_eq_true, if_false] at h
    have hlen1 : (cs.dropWhile Char.isDigit).length < cs.length := by
      have hsplit := List.takeWhile_append_dropWhile Char.isDigit cs
      have hsum : (cs.takeWhile Char.isDigit).length + (cs.dropWhile Char.isDigit).length
          = cs.length := by
        rw [← List.length_append, hsplit]
      have hne : cs.takeWhile Char.isDigit ≠ [] := by
        intro hcon; rw [hcon] at hempty; simp at hempty
      have := List.length_pos.mpr hne
      omega
    set r1 := cs.dropWhile Char.isDigit with hr1
    set fracOk : Bool :=
      decide (r1.head? = some '.') && !(r1.tail.takeWhile Char.isDigit).isEmpty with hfrac
    set r2 := if fracOk then r1.tail.dropWhile Char.isDigit else r1 with hr2def
    have hlen2 : r2.length ≤ r1.length := by
      rw [hr2def]
      split
      · exact le_trans (length_dropWhile_le _ _) (length_tail_le _)
      · exact le_refl _
    set r3 := r2.dropWhile isJsSpace with hr3def
    have hlen3 : r3.length ≤ r2.length := length_dropWhile_le _ _
    set hasPfx : Bool :=
      (match r3.head? with
        | some c => isKMG c
        | none => false) with hhas
    set r4 := if hasPfx then r3.tail else r3 with hr4def
    have hlen4 : r4.length ≤ r3.length := by
      rw [hr4def]; split
      · exact length_tail_le _
      · exact le_refl _
    set r5 := r4.dropWhile isJsSpace with hr5def
    have hlen5 : r5.length ≤ r4.length := length_dropWhile_le _ _
    revert h
    split
    · intro h
      rename_i r6 hstrip
      have hlen6 : r6.length ≤ r5.length := stripUnitWord_length_le _ _ hstrip
      have hre : r6 = rest := by
        simpa using congrArg (fun p => (Prod.snd <$> p).getD []) h
      subst hre
      omega
    · intro h
      exact absurd h (by simp)

/-- `matchAll` with the `g` flag: scan left to right, resuming after each
match (matches are non-empty, so the scan terminates). -/
def scanMatches : List Char → List BwMatch
  | [] => []
  | c :: cs =>
    match h : matchAt (c :: cs) with
    | some (m, rest) => m :: scanMatches rest
    | none => scanMatches cs
termination_by l => l.length
decreasing_by
  · exact matchAt_length h
  · simp

/-- Numeric value of a decimal digit. -/
def digitVal (c : Char) : ℕ := c.toNat - '0'.toNat

/-- Value of a digit string. -/
def natOfDigits (ds : List Char) : ℕ :=
  ds.foldl (fun a c => a * 10 + digitVal c) 0

/-- JS `Number(...)` on an unsigned decimal literal `digits[.digits]`
(the only shape the regex capture can take). -/
def parseDecimal (cs : List Char) : ℚ :=
  let ip := cs.takeWhile (fun c => !(c = '.'))
  let fp := (cs.dropWhile (fun c => !(c = '.'))).tail
  (natOfDigits ip : ℚ) + (natOfDigits fp : ℚ) / (10 : ℚ) ^ fp.length

/-- The test `/^-?\d+(\.\d+)?$/` on an unsigned remainder. -/
def isPureNumericCore (cs : List Char) : Bool :=
  let ds := cs.takeWhile Char.isDigit
  let r1 := cs.dropWhile Char.isDigit
  !ds.isEmpty &&
    (r1.isEmpty ||
      (decide (r1.head? = some '.') &&
        !(r1.tail.takeWhile Char.isDigit).isEmpty &&
        (r1.tail.dropWhile Char.isDigit).isEmpty))

/-- The test `/^-?\d+(\.\d+)?$/` used for pre-normalised numeric lines. -/
def isPureNumeric (cs : List Char) : Bool :=
  match cs with
  | '-' :: r => isPureNumericCore r
  | _ => isPureNumericCore cs

/-- JS `Number(s)` on a string passing `isPureNumeric`. -/
def parseSigned (cs : List Char) : ℚ :=
  match cs with
  | '-' :: r => -(parseDecimal r)
  | _ => parseDecimal cs

/-- `toSelectedUnits(val, prefix, units)` from `runTest.js`: convert the
matched figure to Mbps by the K/M/G letter (missing letter already
defaulted to `M` by the caller), then to the selected display unit. -/
def toSelectedUnits (val : ℚ) (pfxCh : Char) (units : String) : ℚ :=
  let p := upperChar pfxCh
  let mbps := if p = 'K' then val / 1000 else if p = 'G' then val * 1000 else val
  if units = "Kbps" then mbps * 1000
  else if units = "Gbps" then mbps / 1000
  else mbps

/-- `extractBandwidth(line, units)` from `runTest.js`.  `NaN` (no usable
figure in the line) is modelled as `none`. -/
def extractBandwidth (line : String) (units : String) : Option ℚ :=
  let s := trimChars line.toList
  if isPureNumeric s then some (parseSigned s)
  else
    match (scanMatches s).getLast? with
    | none => none
    | some m => some (toSelectedUnits (parseDecimal m.numChars) (m.pfx.getD 'M') units)

theorem scanMatches_nil : scanMatches [] = [] := by
  rw [scanMatches]

theorem scanMatches_cons_some {c : Char} {cs rest : List Char} {m : BwMatch}
    (h : matchAt (c :: cs) = some (m, rest)) :
    scanMatches (c :: cs) = m :: scanMatches rest := by
  rw [scanMatches]
  split
  · rename_i m' rest' h'
    rw [h'] at h
    cases h
    rfl
  · rename_i h'
    rw [h'] at h
    cases h

theorem scanMatches_cons_none {c : Char} {cs : List Char}
    (h : matchAt (c :: cs) = none) :
    scanMatches (c :: cs) = scanMatches cs := by
  rw [scanMatches]
  split
  · rename_i m' rest' h'
    rw [h'] at h
    cases h
  · rfl

/-! ## Interface statistics and quality verdict (`stats_quality.js`) -/

/-- A counter snapshot (the `delta` object of `/api/stats`): counter name
to integer count.  The backend delivers integer deltas, so `sumKeys`'
numeric-coercion guards are identities here. -/
def Snapshot := List (String × ℤ)

/-- `Object.prototype.hasOwnProperty.call(delta, k)`. -/
def hasKey (delta : Snapshot) (k : String) : Bool :=
  (delta.find? (fun p => p.1 == k)).isSome

/-- `delta[k]`, when present. -/
def lookupKey (delta : Snapshot) (k : String) : Option ℤ :=
  (delta.find? (fun p => p.1 == k)).map Prod.snd

/-- `sumKeys(obj, keys)`: sum of the values of the listed keys, absent keys
contributing nothing. -/
def sumKeys (delta : Snapshot) (keys : List String) : ℤ :=
  keys.foldl (fun s k => s + (lookupKey delta k).getD 0) 0

/-- The CRC/FCS keys summed by `updateStatsCards` (the last four are the
"common aliases" kept for future backends). -/
def crcKeys : List String :=
  ["rx_crc_errors", "rx_fcs_errors",
   "rx_crc_err", "rx_fcs_err", "crc_errors", "fcs_errors"]

/-- The text written to the `crcDelta` card (`stats_quality.js` lines
100-103): the summed count when positive, otherwise `"0"` when one of the
two primary keys is present and `"n/a"` when neither is. -/
def crcDeltaText (delta : Snapshot) : String :=
  let crc := sumKeys delta crcKeys
  if 0 < crc then toString crc
  else if hasKey delta "rx_crc_errors" || hasKey delta "rx_fcs_errors" then "0"
  else "n/a"

/-- The `link` object of `/api/stats` (`ok` may be absent). -/
structure LinkStatus where
  ok : Option Bool
  link : String
  speed : String

/-- The literal separator `parts.join(" â€¢ ")` uses in `renderLinkInfo`
(the file stores a mis-decoded bullet). -/
def linkSep : String := " â€¢ "

/-- `renderLinkInfo(link)`: `"--"` for a missing/failed link object,
otherwise the non-empty trimmed `link`/`speed` fields joined. -/
def renderLinkInfo (link : Option LinkStatus) : String :=
  match link with
  | none => "--"
  | some li =>
    if li.ok = some false then "--"
    else
      let l := jsTrim li.link
      let sp := jsTrim li.speed
      let parts := (if l = "" then [] else [l]) ++ (if sp = "" then [] else [sp])
      if parts.isEmpty then "--" else String.intercalate linkSep parts

/-- `/down|disconnected|no/i.test(linkText)` in `computeQuality`. -/
def linkDownTest (linkText : String) : Bool :=
  containsCI linkText "down" || containsCI linkText "disconnected" ||
    containsCI linkText "no"

/-- A quality badge: label text and CSS class. -/
structure Quality where
  label : String
  cls : String
deriving Repr, DecidableEq

/-- `computeQuality(pktErrDelta, dropDelta, crcDelta, linkText)`.
(The JS guards `Number.isFinite(crcDelta) ? crcDelta : 0` and `x || 0` are
identities on integer inputs.) -/
def computeQuality (pktErrDelta dropDelta crcDelta : ℤ) (linkText : String) :
    Quality :=
  if linkDownTest linkText then ⟨"BAD (link)", "bad"⟩
  else if 0 < crcDelta then ⟨"BAD (CRC +" ++ toString crcDelta ++ ")", "bad"⟩
  else
    let score := pktErrDelta + dropDelta
    if score = 0 then ⟨"OK", "ok"⟩
    else if score ≤ 5 then ⟨"WARN (+" ++ toString score ++ ")", "warn"⟩
    else ⟨"BAD (+" ++ toString score ++ ")", "bad"⟩

/-! ## Session controller (`runTest.js` click handler)

The stream-event handler and its helpers are embedded as functions that
emit a trace of primitive UI/stream actions (in the order the code performs
them); the session state is the fold of that trace.  This keeps both the
temporal claims (what happens first) and the state claims (what the run
ends up as) about a single definition. -/

/-- One primitive effect of the controller. -/
inductive Action where
  | armTimer
  | stopTimer
  | hideOverlay
  | showOverlay
  | enableRunBtn
  | gaugeReset
  | closeStream
  | setStatus (s : String)
  | setAvgText (s : String)
  | setMaxShown (v : ℚ)
  | appendLog (s : String)
  | gaugeUpdate (v : ℚ)
  | addSample (v : ℚ)
deriving Repr, DecidableEq

/-- The per-run mutable state the handler touches: the aggregates on
`state`, the status / average / maximum readouts, the output log, the
gauge, and the overlay / button / timer / stream resources. -/
structure Session where
  bandwidthSum : ℚ
  bandwidthCount : ℕ
  maxBandwidth : ℚ
  status : String
  avgText : String
  maxShown : Option ℚ
  log : List String
  gauge : GaugeState
  overlayShown : Bool
  runBtnEnabled : Bool
  timerArmed : Bool
  streamOpen : Bool
deriving Repr, DecidableEq

/-- Effect of one primitive action on the session state. -/
def applyAction (st : Session) : Action → Session
  | .armTimer => { st with timerArmed := true }
  | .stopTimer => { st with timerArmed := false }
  | .hideOverlay => { st with overlayShown := false }
  | .showOverlay => { st with overlayShown := true }
  | .enableRunBtn => { st with runBtnEnabled := true }
  | .gaugeReset => { st with gauge := resetGauge st.gauge }
  | .closeStream => { st with streamOpen := false }
  | .setStatus s => { st with status := s }
  | .setAvgText s => { st with avgText := s }
  | .setMaxShown v => { st with maxShown := some v }
  | .appendLog s => { st with log := st.log ++ [s] }
  | .gaugeUpdate v => { st with gauge := updateGauge st.gauge v }
  | .addSample v =>
    { st with
      bandwidthSum := st.bandwidthSum + v
      bandwidthCount := st.bandwidthCount + 1
      maxBandwidth := if st.maxBandwidth < v then v else st.maxBandwidth }

/-- `cleanup({reset, closeStream})` (lines 134-149): hide the overlay, stop
the inactivity timer, re-enable the start button, optionally reset the
gauge, optionally close and dereference the event stream. -/
def cleanupActions (reset closeStream : Bool) : List Action :=
  [.hideOverlay, .stopTimer, .enableRunBtn]
    ++ (if reset then [.gaugeReset] else [])
    ++ (if closeStream then [.closeStream] else [])

/-- JS `x.toFixed(2)` for the nonnegative averages produced here: round to
two decimal places (ties up) and print both digits. -/
def toFixed2 (q : ℚ) : String :=
  let n : ℕ := (⌊q * 100 + 1 / 2⌋).toNat
  toString (n / 100) ++ "." ++ (if n % 100 < 10 then "0" else "") ++ toString (n % 100)

/-- `s.startsWith(p)`. -/
def startsWithStr (s p : String) : Bool :=
  p.toList.isPrefixOf s.toList

/-- `NO_DATA_MS`: the inactivity window, wider for reversed (download)
runs. -/
def noDataMs (mode : String) : ℕ :=
  if mode = "download" then 45000 else 15000

/-- The no-data timer callback (lines 124-130): mark Error, log the
timeout (and the last captured start command, if any), full cleanup. -/
def timeoutActions (lastCmd : String) : List Action :=
  [.setStatus "Error", .appendLog "Timeout: Keine Daten vom Stream erhalten."]
    ++ (if lastCmd = "" then [] else [.appendLog ("Letzter CMD: " ++ lastCmd)])
    ++ cleanupActions true true

/-- The body of the `message` listener after `const s = (e.data ?? "").trim()`:
the trace of actions it performs, branching on the trimmed frame `s`. -/
def messageActionsCore (units : String) (st : Session) (s : String) : List Action :=
  Action.armTimer ::
    (if s = "" ∨ s = "ping" then []
     else if s = "-1" then
       [.setStatus "Complete",
        .setAvgText
          ((if 0 < st.bandwidthCount then toFixed2 (st.bandwidthSum / st.bandwidthCount)
            else "0.00") ++ " " ++ units),
        .setMaxShown st.maxBandwidth]
         ++ cleanupActions false true
     else if s = "server is busy" then
       [.setStatus "Server is Busy", .appendLog "server is busy"]
         ++ cleanupActions true true
     else if startsWithStr s "CMD:" || startsWithStr s "WORKER:" ||
         startsWithStr s "LOGFILE:" then
       [.appendLog s]
     else
       match extractBandwidth s units with
       | none => [.appendLog s]
       | some v =>
         [.gaugeUpdate v, .addSample v, .setStatus "Running", .appendLog s,
          .showOverlay])

/-- The `message` listener (lines 179-235), as the trace of actions it
performs for one delivered frame. -/
def messageActions (units : String) (st : Session) (data : String) : List Action :=
  messageActionsCore units st (jsTrim data)

/-- State after the `message` listener handles one frame. -/
def handleMessage (units : String) (st : Session) (data : String) : Session :=
  (messageActions units st data).foldl applyAction st

/-- State after a sequence of frames. -/
def runSession (units : String) (st : Session) (msgs : List String) : Session :=
  msgs.foldl (handleMessage units) st

/-- `initialMax` chosen for the gauge at run start (click handler line 95,
same formula as `main.js`). -/
def initialMaxFor (units : String) : ℚ :=
  if units = "Gbps" then 1 else if units = "Kbps" then 1000000 else 1000

/-- The session state right after the click handler's synchronous prefix:
aggregates zeroed, status "Starting", readouts dashed, gauge re-initialised
sweeping, button disabled, overlay up, stream opened, timer armed. -/
def initialSession (units : String) : Session :=
  { bandwidthSum := 0
    bandwidthCount := 0
    maxBandwidth := 0
    status := "Starting"
    avgText := "- " ++ units
    maxShown := none
    log := ["Running iPerf3..."]
    gauge := initGaugeState (initialMaxFor units) true
    overlayShown := true
    runBtnEnabled := false
    timerArmed := true
    streamOpen := true }

/-- The bandwidth validation regex `/^\d+(\.\d+)?[KMG]$/i` of the click
handler (line 78). -/
def validBandwidth (cs : List Char) : Bool :=
  let ds := cs.takeWhile Char.isDigit
  let r1 := cs.dropWhile Char.isDigit
  if ds.isEmpty then false else
  match r1 with
  | [c] => isKMG c
  | '.' :: r =>
    (!(r.takeWhile Char.isDigit).isEmpty) &&
      (match r.dropWhile Char.isDigit with
       | [c] => isKMG c
       | _ => false)
  | _ => false

/-- The bandwidth actually sent to `/run_iperf`:
`let bandwidth = state.bandwidth.trim(); if (!regex.test(bandwidth)) bandwidth = "0"`. -/
def effectiveBandwidth (raw : String) : String :=
  let b := jsTrim raw
  if validBandwidth b.toList then b else "0"

/-! ## Event-stream lifecycle (`runTest.js`)

The `EventSource` lifecycle per browser tab: `window.__iperfES` always
aliases the handler-local `eventSource` (the handler assigns both in the
same synchronous block), so the tab state is the optional current
connection plus the list of connections not yet closed.  Each
user-visible event maps to the close/open operations its code path
performs, in order. -/

/-- Connections are numbered in creation order. -/
structure TabState where
  current : Option ℕ
  openConns : List ℕ
  nextId : ℕ
deriving Repr, DecidableEq

/-- `try { window.__iperfES?.close(); } catch {} ; window.__iperfES = null;`
(also what `cleanup`'s `closeStream` branch does via both aliases). -/
def closeCurrent (ts : TabState) : TabState :=
  match ts.current with
  | none => { ts with current := none }
  | some i => { ts with current := none, openConns := ts.openConns.erase i }

/-- The user-visible events that touch the stream connection. -/
inductive RunEvent where
  /-- the click handler: close any leftover stream (lines 154-155), then
  `new EventSource(...)` assigned to both aliases (lines 165-166) -/
  | startRun
  /-- the `"-1"` end marker → `cleanup({closeStream: true})` -/
  | streamEnd
  /-- `"server is busy"` → `cleanup({closeStream: true})` -/
  | streamBusy
  /-- `error` listener with `readyState === CLOSED` → cleanup -/
  | streamErrorClosed
  /-- the inactivity timer fires → cleanup -/
  | inactivityTimeout
  /-- `/run_iperf` failed or threw → cleanup -/
  | startRequestFailed
deriving Repr, DecidableEq

/-- Effect of one event on the tab's connection state. -/
def stepConn (ts : TabState) : RunEvent → TabState
  | .startRun =>
    let ts1 := closeCurrent ts
    { current := some ts1.nextId
      openConns := ts1.openConns ++ [ts1.nextId]
      nextId := ts1.nextId + 1 }
  | _ => closeCurrent ts

/-- Connection state over a whole event history, from a fresh tab. -/
def runConn (evs : List RunEvent) : TabState :=
  evs.foldl stepConn { current := none, openConns := [], nextId := 0 }

/-! ## Helper lemmas -/

theorem crc_label_ne_link (t : String) : "BAD (CRC +" ++ t ++ ")" ≠ "BAD (link)" := by
  intro h
  have h2 := congrArg String.data h
  rw [String.data_append, String.data_append] at h2
  rw [show "BAD (CRC +".data = ['B','A','D',' ','(','C','R','C',' ','+'] from rfl,
    show ")".data = [')'] from rfl,
    show "BAD (link)".data = ['B','A','D',' ','(','l','i','n','k',')'] from rfl] at h2
  simp at h2

theorem warn_label_ne_link (t : String) : "WARN (+" ++ t ++ ")" ≠ "BAD (link)" := by
  intro h
  have h2 := congrArg String.data h
  rw [String.data_append, String.data_append] at h2
  rw [show "WARN (+".data = ['W','A','R','N',' ','(','+'] from rfl,
    show ")".data = [')'] from rfl,
    show "BAD (link)".data = ['B','A','D',' ','(','l','i','n','k',')'] from rfl] at h2
  simp at h2

theorem bad_label_ne_link (t : String) : "BAD (+" ++ t ++ ")" ≠ "BAD (link)" := by
  intro h
  have h2 := congrArg String.data h
  rw [String.data_append, String.data_append] at h2
  rw [show "BAD (+".data = ['B','A','D',' ','(','+'] from rfl,
    show ")".data = [')'] from rfl,
    show "BAD (link)".data = ['B','A','D',' ','(','l','i','n','k',')'] from rfl] at h2
  simp at h2

/-! ## Claims -/

/-- C2: the quality verdict is computed with link-down first, then CRC,
then the packet-error + drop score with thresholds 0 / 1-5 / >5. -/
theorem C2_quality_verdict (pe dr crc : ℤ) (txt : String) :
    (linkDownTest txt = true →
      computeQuality pe dr crc txt = ⟨"BAD (link)", "bad"⟩) ∧
    (linkDownTest txt = false → 0 < crc →
      computeQuality pe dr crc txt = ⟨"BAD (CRC +" ++ toString crc ++ ")", "bad"⟩) ∧
    (linkDownTest txt = false → crc ≤ 0 → pe + dr = 0 →
      computeQuality pe dr crc txt = ⟨"OK", "ok"⟩) ∧
    (linkDownTest txt = false → crc ≤ 0 → 1 ≤ pe + dr → pe + dr ≤ 5 →
      computeQuality pe dr crc txt = ⟨"WARN (+" ++ toString (pe + dr) ++ ")", "warn"⟩) ∧
    (linkDownTest txt = false → crc ≤ 0 → 5 < pe + dr →
      computeQuality pe dr crc txt = ⟨"BAD (+" ++ toString (pe + dr) ++ ")", "bad"⟩) := by
  unfold computeQuality
  refine ⟨fun h => by simp [h], fun h hc => by simp [h, hc, not_lt.mpr], ?_, ?_, ?_⟩
  · intro h hc hs
    rw [if_neg (by simp [h]), if_neg (by omega), if_pos hs]
  · intro h hc h1 h5
    rw [if_neg (by simp [h]), if_neg (by omega), if_neg (by omega), if_pos h5]
  · intro h hc h5
    rw [if_neg (by simp [h]), if_neg (by omega), if_neg (by omega), if_neg (by omega)]

/-- C2 witness: link up, no CRC, packet-error + drop sum 3 gives WARN. -/
theorem C2_quality_verdict_witness :
    linkDownTest "up" = false ∧
    computeQuality 2 1 0 "up" = ⟨"WARN (+3)", "warn"⟩ := by
  refine ⟨by decide, ?_⟩
  rw [(C2_quality_verdict 2 1 0 "up").2.2.2.1 (by decide) (by omega) (by omega) (by omega)]
  rfl

/-- C10: the verdict is "BAD (link)" exactly when the rendered link text
matches `/down|disconnected|no/i`, whatever the deltas are — including
texts that merely contain "no" inside another word. -/
theorem C10_bad_link_iff (pe dr crc : ℤ) (link : Option LinkStatus) :
    ((computeQuality pe dr crc (renderLinkInfo link)).label = "BAD (link)" ↔
      linkDownTest (renderLinkInfo link) = true) ∧
    (computeQuality pe dr crc (renderLinkInfo (some ⟨some true, "up", "Unknown"⟩)) =
      ⟨"BAD (link)", "bad"⟩) := by
  constructor
  · constructor
    · intro h
      by_contra hn
      have hn' : linkDownTest (renderLinkInfo link) = false :=
        Bool.eq_false_iff.mpr hn
      unfold computeQuality at h
      rw [if_neg (by simp [hn'])] at h
      by_cases hc : 0 < crc
      · rw [if_pos hc] at h
        exact crc_label_ne_link _ h
      · rw [if_neg hc] at h
        by_cases h0 : pe + dr = 0
        · rw [if_pos h0] at h
          simp at h
        · rw [if_neg h0] at h
          by_cases h5 : pe + dr ≤ 5
          · rw [if_pos h5] at h
            exact warn_label_ne_link _ h
          · rw [if_neg h5] at h
            exact bad_label_ne_link _ h
    · intro h
      unfold computeQuality
      rw [if_pos h]
  · have hdown : linkDownTest (renderLinkInfo (some ⟨some true, "up", "Unknown"⟩)) = true := by
      decide
    unfold computeQuality
    rw [if_pos hdown]

/-- C10 witness: a concrete link report whose speed text only contains
"no" inside the word "Unknown" is still classified "BAD (link)". -/
theorem C10_bad_link_iff_witness :
    (computeQuality 0 0 0 (renderLinkInfo (some ⟨some true, "up", "Unknown"⟩))).label
      = "BAD (link)" :=
  (C10_bad_link_iff 0 0 0 (some ⟨some true, "up", "Unknown"⟩)).1.mpr (by decide)

/-- C6 counterexample: the snapshot `{crc_errors: 0}` contains a relevant
CRC key (it is one of the keys `updateStatsCards` sums) with sum zero, yet
the card shows "n/a", not the literal count "0" — the existence check only
looks at `rx_crc_errors` / `rx_fcs_errors`. -/
theorem C6_alias_key_counterexample :
    "crc_errors" ∈ crcKeys ∧
    hasKey [("crc_errors", 0)] "crc_errors" = true ∧
    sumKeys [("crc_errors", 0)] crcKeys = 0 ∧
    crcDeltaText [("crc_errors", 0)] = "n/a" := by
  decide

/-- C6 (amended): the card shows the literal summed count whenever the sum
is positive; for a non-positive sum it shows "0" exactly when
`rx_crc_errors` or `rx_fcs_errors` is present in the snapshot and "n/a"
otherwise (so a snapshot carrying only the alias keys with sum zero reads
"n/a"). -/
theorem C6_crc_text (delta : Snapshot) :
    (0 < sumKeys delta crcKeys →
      crcDeltaText delta = toString (sumKeys delta crcKeys)) ∧
    (sumKeys delta crcKeys ≤ 0 →
      crcDeltaText delta =
        if hasKey delta "rx_crc_errors" || hasKey delta "rx_fcs_errors"
        then "0" else "n/a") := by
  unfold crcDeltaText
  constructor
  · intro h
    rw [if_pos h]
  · intro h
    rw [if_neg (not_lt.mpr h)]

/-- C6 witness: a snapshot where `rx_crc_errors` is present with value 0
shows the literal "0". -/
theorem C6_crc_text_witness :
    crcDeltaText [("rx_crc_errors", 0)] = "0" :=
  ((C6_crc_text [("rx_crc_errors", 0)]).2 (by decide)).trans (by decide)

/-- C9: a trimmed bandwidth entry that fails `/^\d+(\.\d+)?[KMG]$/i` is
replaced by "0" in the start request (and a passing one is sent as
typed). -/
theorem C9_invalid_bandwidth_zeroed (raw : String) :
    (validBandwidth (jsTrim raw).toList = false → effectiveBandwidth raw = "0") ∧
    (validBandwidth (jsTrim raw).toList = true → effectiveBandwidth raw = jsTrim raw) := by
  unfold effectiveBandwidth
  constructor
  · intro h
    rw [if_neg (by simp only [Bool.not_eq_true]; exact h)]
  · intro h
    rw [if_pos h]

/-- C9 witness: " 100 " (no unit letter) is invalid and is sent as "0";
"100M" passes and is sent unchanged. -/
theorem C9_invalid_bandwidth_zeroed_witness :
    effectiveBandwidth " 100 " = "0" ∧ effectiveBandwidth "100M" = "100M" :=
  ⟨(C9_invalid_bandwidth_zeroed " 100 ").1 (by decide),
   ((C9_invalid_bandwidth_zeroed "100M").2 (by decide)).trans (by decide)⟩

/-- The connection invariant: either nothing is open, or exactly the
connection `window.__iperfES` refers to is open. -/
def ConnInv (ts : TabState) : Prop :=
  ts.openConns = [] ∨ ∃ i, ts.openConns = [i] ∧ ts.current = some i

theorem closeCurrent_closes (ts : TabState) (h : ConnInv ts) :
    (closeCurrent ts).openConns = [] ∧ (closeCurrent ts).current = none ∧
      (closeCurrent ts).nextId = ts.nextId := by
  unfold closeCurrent
  rcases h with h | ⟨i, hopen, hcur⟩
  · cases hc : ts.current <;> simp [h]
  · rw [hcur]
    simp [hopen, List.erase_cons]

theorem stepConn_inv (ts : TabState) (e : RunEvent) (h : ConnInv ts) :
    ConnInv (stepConn ts e) := by
  obtain ⟨h1, h2, _⟩ := closeCurrent_closes ts h
  cases e
  case startRun =>
    right
    exact ⟨(closeCurrent ts).nextId, by simp [stepConn, h1], rfl⟩
  all_goals exact Or.inl h1

theorem foldl_stepConn_inv (evs : List RunEvent) (ts : TabState) (h : ConnInv ts) :
    ConnInv (evs.foldl stepConn ts) := by
  induction evs generalizing ts with
  | nil => exact h
  | cons e evs ih => exact ih _ (stepConn_inv ts e h)

theorem runConn_inv (evs : List RunEvent) : ConnInv (runConn evs) :=
  foldl_stepConn_inv evs _ (Or.inl rfl)

/-- C7: after any event history at most one stream connection is open;
every termination path leaves none open and dereferences the handle; and a
new run first closes any leftover connection, so right after a start
exactly the freshly created connection is open. -/
theorem C7_single_connection (evs : List RunEvent) :
    (runConn evs).openConns.length ≤ 1 ∧
    (∀ e, e ≠ RunEvent.startRun →
      (stepConn (runConn evs) e).openConns = [] ∧
      (stepConn (runConn evs) e).current = none) ∧
    (stepConn (runConn evs) RunEvent.startRun).openConns
      = [(runConn evs).nextId] ∧
    (stepConn (runConn evs) RunEvent.startRun).current
      = some (runConn evs).nextId := by
  have hinv := runConn_inv evs
  obtain ⟨h1, h2, h3⟩ := closeCurrent_closes _ hinv
  refine ⟨?_, ?_, ?_, ?_⟩
  · rcases hinv with h | ⟨i, hopen, _⟩
    · simp [h]
    · simp [hopen]
  · intro e he
    cases e
    case startRun => exact absurd rfl he
    all_goals exact ⟨h1, h2⟩
  · simp [stepConn, h1, h3]
  · simp [stepConn, h3]

/-- C7 witness: a run started, completed, and restarted ends with exactly
one open connection; a subsequent timeout closes it. -/
theorem C7_single_connection_witness :
    (runConn [RunEvent.startRun, RunEvent.streamEnd,
        RunEvent.startRun]).openConns.length ≤ 1 ∧
    (stepConn (runConn [RunEvent.startRun, RunEvent.streamEnd, RunEvent.startRun])
        RunEvent.inactivityTimeout).openConns = [] :=
  ⟨(C7_single_connection [RunEvent.startRun, RunEvent.streamEnd, RunEvent.startRun]).1,
   ((C7_single_connection [RunEvent.startRun, RunEvent.streamEnd, RunEvent.startRun]).2.1
      RunEvent.inactivityTimeout (by decide)).1⟩

/-- C8: the message listener re-arms the inactivity timer as its first
action on every frame (empty and "ping" frames included); the window is
wider for download than upload runs; and the timer firing marks the run as
an Error, logs the timeout (plus the captured start command when there is
one), and tears the stream down. -/
theorem C8_timer_first (units lastCmd : String) (st : Session) (data : String) :
    (messageActions units st data).head? = some Action.armTimer ∧
    noDataMs "upload" < noDataMs "download" ∧
    ((timeoutActions lastCmd).foldl applyAction st).status = "Error" ∧
    ((timeoutActions lastCmd).foldl applyAction st).streamOpen = false ∧
    "Timeout: Keine Daten vom Stream erhalten."
      ∈ ((timeoutActions lastCmd).foldl applyAction st).log ∧
    (lastCmd ≠ "" →
      ("Letzter CMD: " ++ lastCmd)
        ∈ ((timeoutActions lastCmd).foldl applyAction st).log) := by
  refine ⟨rfl, by decide, ?_⟩
  unfold timeoutActions cleanupActions
  by_cases hc : lastCmd = ""
  · simp [hc, applyAction]
  · simp [hc, applyAction]

/-- C8 witness: with a captured command the timeout log carries it. -/
theorem C8_timer_first_witness :
    (messageActions "Mbps" (initialSession "Mbps") "ping").head?
        = some Action.armTimer ∧
    ("Letzter CMD: iperf3 -c 192.168.10.2"
      ∈ ((timeoutActions "iperf3 -c 192.168.10.2").foldl applyAction
          (initialSession "Mbps")).log) :=
  ⟨(C8_timer_first "Mbps" "iperf3 -c 192.168.10.2" (initialSession "Mbps") "ping").1,
   (C8_timer_first "Mbps" "iperf3 -c 192.168.10.2" (initialSession "Mbps") "ping").2.2.2.2.2
     (by decide)⟩

/-- C3: unit conversion — the matched figure is taken to Mbps by its K/M/G
letter, then to the selected display unit; "941 Mbits/sec" parses to 941
Mbps, 0.941 Gbps, 941000 Kbps; a missing letter means M; a line without
any bandwidth figure yields the NaN sentinel. -/
theorem C3_unit_conversion :
    (∀ v : ℚ, ∀ u : String,
      toSelectedUnits v 'K' u = toSelectedUnits (v / 1000) 'M' u ∧
      toSelectedUnits v 'G' u = toSelectedUnits (v * 1000) 'M' u) ∧
    (∀ v : ℚ,
      toSelectedUnits v 'M' "Kbps" = v * 1000 ∧
      toSelectedUnits v 'M' "Gbps" = v / 1000 ∧
      toSelectedUnits v 'M' "Mbps" = v) ∧
    extractBandwidth "941 Mbits/sec" "Mbps" = some 941 ∧
    extractBandwidth "941 Mbits/sec" "Gbps" = some (941 / 1000) ∧
    extractBandwidth "941 Mbits/sec" "Kbps" = some 941000 ∧
    extractBandwidth "941 bits/sec" "Mbps" = some 941 ∧
    (∀ line units, isPureNumeric (trimChars line.toList) = false →
      scanMatches (trimChars line.toList) = [] →
      extractBandwidth line units = none) := by
  have h941 : matchAt ('9' :: '4' :: '1' :: ' ' :: 'M' :: 'b' :: 'i' :: 't' :: 's' :: '/' :: 's' :: 'e' :: 'c'::[])
      = some (⟨['9','4','1'], some 'M'⟩, []) := by decide
  have h941n : matchAt ('9' :: '4' :: '1' :: ' ' :: 'b' :: 'i' :: 't' :: 's' :: '/' :: 's' :: 'e' :: 'c'::[])
      = some (⟨['9','4','1'], none⟩, []) := by decide
  refine ⟨?_, ?_, ?_, ?_, ?_, ?_, ?_⟩
  · intro v u
    constructor <;> simp [toSelectedUnits, upperChar]
  · intro v
    refine ⟨?_, ?_, ?_⟩ <;> simp [toSelectedUnits, upperChar]
  · unfold extractBandwidth
    rw [show trimChars "941 Mbits/sec".toList
        = '9' :: '4' :: '1' :: ' ' :: 'M' :: 'b' :: 'i' :: 't' :: 's' :: '/' :: 's' :: 'e' :: 'c'::[] from by decide]
    rw [if_neg (by decide), scanMatches_cons_some h941, scanMatches_nil]
    simp only [List.getLast?, Option.getD]
    simp [parseDecimal, natOfDigits, digitVal, toSelectedUnits, upperChar]
  · unfold extractBandwidth
    rw [show trimChars "941 Mbits/sec".toList
        = '9' :: '4' :: '1' :: ' ' :: 'M' :: 'b' :: 'i' :: 't' :: 's' :: '/' :: 's' :: 'e' :: 'c'::[] from by decide]
    rw [if_neg (by decide), scanMatches_cons_some h941, scanMatches_nil]
    simp only [List.getLast?, Option.getD]
    simp [parseDecimal, natOfDigits, digitVal, toSelectedUnits, upperChar]
  · unfold extractBandwidth
    rw [show trimChars "941 Mbits/sec".toList
        = '9' :: '4' :: '1' :: ' ' :: 'M' :: 'b' :: 'i' :: 't' :: 's' :: '/' :: 's' :: 'e' :: 'c'::[] from by decide]
    rw [if_neg (by decide), scanMatches_cons_some h941, scanMatches_nil]
    simp only [List.getLast?, Option.getD]
    simp [parseDecimal, natOfDigits, digitVal, toSelectedUnits, upperChar]
    norm_num
  · unfold extractBandwidth
    rw [show trimChars "941 bits/sec".toList
        = '9' :: '4' :: '1' :: ' ' :: 'b' :: 'i' :: 't' :: 's' :: '/' :: 's' :: 'e' :: 'c'::[] from by decide]
    rw [if_neg (by decide), scanMatches_cons_some h941n, scanMatches_nil]
    simp only [List.getLast?, Option.getD]
    simp [parseDecimal, natOfDigits, digitVal, toSelectedUnits, upperChar]
  · intro line units h1 h2
    unfold extractBandwidth
    rw [if_neg (by simp only [Bool.not_eq_true]; exact h1), h2]
    rfl

/-- C3 witness: the conversion clauses at 941, and the NaN clause at a
line with no bandwidth figure. -/
theorem C3_unit_conversion_witness :
    toSelectedUnits 941 'M' "Kbps" = 941 * 1000 ∧
    extractBandwidth "hello" "Mbps" = none := by
  refine ⟨(C3_unit_conversion.2.1 941).1, ?_⟩
  refine C3_unit_conversion.2.2.2.2.2.2 "hello" "Mbps" (by decide) ?_
  rw [show trimChars "hello".toList = 'h' :: 'e' :: 'l' :: 'l' :: 'o'::[] from by decide]
  rw [scanMatches_cons_none (by decide), scanMatches_cons_none (by decide),
    scanMatches_cons_none (by decide), scanMatches_cons_none (by decide),
    scanMatches_cons_none (by decide), scanMatches_nil]

/-- C5: when the trimmed line is not a pure number, the parsed result is
determined by the last regex match alone. -/
theorem C5_last_match (line units : String) (m : BwMatch)
    (h1 : isPureNumeric (trimChars line.toList) = false)
    (h2 : (scanMatches (trimChars line.toList)).getLast? = some m) :
    extractBandwidth line units
      = some (toSelectedUnits (parseDecimal m.numChars) (m.pfx.getD 'M') units) := by
  unfold extractBandwidth
  rw [if_neg (by simp only [Bool.not_eq_true]; exact h1), h2]

/-- C5 witness: a line with two bandwidth figures parses to the second
one. -/
theorem C5_last_match_witness :
    scanMatches (trimChars "5 Mbits/sec 7 Mbits/sec".toList)
      = [⟨['5'], some 'M'⟩, ⟨['7'], some 'M'⟩] ∧
    extractBandwidth "5 Mbits/sec 7 Mbits/sec" "Mbps" = some 7 := by
  have hscan : scanMatches (trimChars "5 Mbits/sec 7 Mbits/sec".toList)
      = [⟨['5'], some 'M'⟩, ⟨['7'], some 'M'⟩] := by
    rw [show trimChars "5 Mbits/sec 7 Mbits/sec".toList
        = '5' :: ' ' :: 'M' :: 'b' :: 'i' :: 't' :: 's' :: '/' :: 's' :: 'e' :: 'c'::
          ' ' :: '7' :: ' ' :: 'M' :: 'b' :: 'i' :: 't' :: 's' :: '/' :: 's' :: 'e' :: 'c'::[] from by decide]
    have hm1 : matchAt ('5' :: ' ' :: 'M' :: 'b' :: 'i' :: 't' :: 's' :: '/' :: 's' :: 'e' :: 'c'::
        ' ' :: '7' :: ' ' :: 'M' :: 'b' :: 'i' :: 't' :: 's' :: '/' :: 's' :: 'e' :: 'c'::[])
        = some (⟨['5'], some 'M'⟩,
            ' ' :: '7' :: ' ' :: 'M' :: 'b' :: 'i' :: 't' :: 's' :: '/' :: 's' :: 'e' :: 'c'::[]) := by decide
    have hm2 : matchAt (' ' :: '7' :: ' ' :: 'M' :: 'b' :: 'i' :: 't' :: 's' :: '/' :: 's' :: 'e' :: 'c'::[])
        = none := by decide
    have hm3 : matchAt ('7' :: ' ' :: 'M' :: 'b' :: 'i' :: 't' :: 's' :: '/' :: 's' :: 'e' :: 'c'::[])
        = some (⟨['7'], some 'M'⟩, []) := by decide
    rw [scanMatches_cons_some hm1, scanMatches_cons_none hm2,
      scanMatches_cons_some hm3, scanMatches_nil]
  refine ⟨hscan, ?_⟩
  rw [C5_last_match "5 Mbits/sec 7 Mbits/sec" "Mbps" ⟨['7'], some 'M'⟩ (by decide)
    (by rw [hscan]; rfl)]
  simp [parseDecimal, natOfDigits, digitVal, toSelectedUnits, upperChar]

/-! ## Gauge-scale analysis (C1)

Every expansion writes `⌈candidate/step⌉ * step` with
`step = d * 10^⌊log10(candidate/5)⌋`, `d ∈ {1,2,5}`; the quotient bounds
below confine the resulting multiplier to a fixed list, and no product of
a listed multiplier and a power of ten can fall strictly between 24/25 of
a reachable maximum and that maximum — which is exactly what shrinking
would require. -/

/-- The multipliers (`n` in `n * 10^j`) an expanded scale can carry. -/
def expandedMultipliers : List ℕ :=
  [5, 6, 8, 10, 12, 15, 20, 25, 30, 35, 40, 45, 50]

/-- Multipliers of reachable gauge maxima (initial scales contribute 1). -/
def niceMultipliers : List ℕ := 1 :: expandedMultipliers

/-- Invariant on the gauge's `maxValue`: a listed multiplier times a power
of ten.  It holds for all of `initGauge`'s initial scales and is preserved
by `updateGauge`. -/
def GaugeMaxInv (m : ℚ) : Prop :=
  ∃ j : ℤ, ∃ n ∈ niceMultipliers, m = (n : ℚ) * (10 : ℚ) ^ j

theorem int_log_ten_eq (r : ℚ) (k : ℤ) (hr : 0 < r)
    (h1 : (10:ℚ)^k ≤ r) (h2 : r < (10:ℚ)^(k+1)) : Int.log 10 r = k := by
  have ha := Int.zpow_log_le_self (show (1:ℕ) < 10 by norm_num) hr
  have hb := Int.lt_zpow_succ_log_self (show (1:ℕ) < 10 by norm_num) r
  push_cast at ha hb
  by_contra hne
  rcases lt_or_gt_of_ne hne with hlt | hgt
  · have h3 : (10:ℚ)^(Int.log 10 r + 1) ≤ (10:ℚ)^k :=
      zpow_le_zpow_right₀ (by norm_num) (by omega)
    linarith
  · have h3 : (10:ℚ)^(k+1) ≤ (10:ℚ)^(Int.log 10 r) :=
      zpow_le_zpow_right₀ (by norm_num) (by omega)
    linarith

theorem gaugeMagnitude_pos (c : ℚ) : 0 < gaugeMagnitude c :=
  zpow_pos (by norm_num) _

theorem gaugeMagnitude_bounds (c : ℚ) (hc : 0 < c) :
    5 * gaugeMagnitude c ≤ c ∧ c < 50 * gaugeMagnitude c := by
  have h5 : 0 < c / 5 := by positivity
  have h1 := Int.zpow_log_le_self (show (1:ℕ) < 10 by norm_num) h5
  have h2 := Int.lt_zpow_succ_log_self (show (1:ℕ) < 10 by norm_num) (c / 5)
  push_cast at h1 h2
  rw [zpow_add_one₀ (by norm_num : (10:ℚ) ≠ 0)] at h2
  unfold gaugeMagnitude
  constructor <;> linarith

/-- Form of an expanded maximum: a multiplier from the list times the
magnitude, and never below the candidate it rounds. -/
theorem roundUp_expand (c : ℚ) (hc : 0 < c) :
    ∃ n ∈ expandedMultipliers,
      roundUpToStep c (niceStepFor c) = (n : ℚ) * gaugeMagnitude c ∧
      c ≤ roundUpToStep c (niceStepFor c) := by
  obtain ⟨hlo, hhi⟩ := gaugeMagnitude_bounds c hc
  have hmag := gaugeMagnitude_pos c
  unfold niceStepFor
  split_ifs with hc1 hc2
  · -- step = 1 * magnitude, quotient in [5, 6)
    have hp : (0:ℚ) < 1 * gaugeMagnitude c := by linarith
    obtain ⟨k, hk⟩ : ∃ k : ℤ, ⌈c / (1 * gaugeMagnitude c)⌉ = k := ⟨_, rfl⟩
    have hk5 : (4:ℤ) < k := by
      rw [← hk]
      apply Int.lt_ceil.mpr
      push_cast
      rw [lt_div_iff hp]
      linarith
    have hk6 : k ≤ 6 := by
      rw [← hk]
      apply Int.ceil_le.mpr
      push_cast
      exact le_of_lt hc1
    have hceil := Int.le_ceil (c / (1 * gaugeMagnitude c))
    rw [hk] at hceil
    have hle : c ≤ roundUpToStep c (1 * gaugeMagnitude c) := by
      unfold roundUpToStep
      rw [hk]
      calc c = c / (1 * gaugeMagnitude c) * (1 * gaugeMagnitude c) := by field_simp
        _ ≤ (k:ℚ) * (1 * gaugeMagnitude c) :=
          mul_le_mul_of_nonneg_right hceil (le_of_lt hp)
    refine ⟨(k * 1).toNat, ?_, ?_, hle⟩
    · interval_cases k <;> decide
    · unfold roundUpToStep
      rw [hk]
      have hcast : (((k * 1).toNat : ℕ) : ℚ) = ((k * 1 : ℤ) : ℚ) := by
        exact_mod_cast congrArg Int.cast (Int.toNat_of_nonneg (by omega))
      rw [hcast]
      push_cast
      ring
  · -- step = 2 * magnitude, quotient in [3, 6)
    have hp : (0:ℚ) < 2 * gaugeMagnitude c := by linarith
    have hge6 : 6 * (1 * gaugeMagnitude c) ≤ c := by
      rw [← le_div_iff (by linarith : (0:ℚ) < 1 * gaugeMagnitude c)]
      exact le_of_not_lt hc1
    obtain ⟨k, hk⟩ : ∃ k : ℤ, ⌈c / (2 * gaugeMagnitude c)⌉ = k := ⟨_, rfl⟩
    have hk3 : (2:ℤ) < k := by
      rw [← hk]
      apply Int.lt_ceil.mpr
      push_cast
      rw [lt_div_iff hp]
      linarith
    have hk6 : k ≤ 6 := by
      rw [← hk]
      apply Int.ceil_le.mpr
      push_cast
      exact le_of_lt hc2
    have hceil := Int.le_ceil (c / (2 * gaugeMagnitude c))
    rw [hk] at hceil
    have hle : c ≤ roundUpToStep c (2 * gaugeMagnitude c) := by
      unfold roundUpToStep
      rw [hk]
      calc c = c / (2 * gaugeMagnitude c) * (2 * gaugeMagnitude c) := by field_simp
        _ ≤ (k:ℚ) * (2 * gaugeMagnitude c) :=
          mul_le_mul_of_nonneg_right hceil (le_of_lt hp)
    refine ⟨(k * 2).toNat, ?_, ?_, hle⟩
    · interval_cases k <;> decide
    · unfold roundUpToStep
      rw [hk]
      have hcast : (((k * 2).toNat : ℕ) : ℚ) = ((k * 2 : ℤ) : ℚ) := by
        exact_mod_cast congrArg Int.cast (Int.toNat_of_nonneg (by omega))
      rw [hcast]
      push_cast
      ring
  · -- step = 5 * magnitude, quotient in [12/5, 10)
    have hp : (0:ℚ) < 5 * gaugeMagnitude c := by linarith
    have hge12 : 6 * (2 * gaugeMagnitude c) ≤ c := by
      rw [← le_div_iff (by linarith : (0:ℚ) < 2 * gaugeMagnitude c)]
      exact le_of_not_lt hc2
    obtain ⟨k, hk⟩ : ∃ k : ℤ, ⌈c / (5 * gaugeMagnitude c)⌉ = k := ⟨_, rfl⟩
    have hk3 : (2:ℤ) < k := by
      rw [← hk]
      apply Int.lt_ceil.mpr
      push_cast
      rw [lt_div_iff hp]
      linarith
    have hk10 : k ≤ 10 := by
      rw [← hk]
      apply Int.ceil_le.mpr
      push_cast
      rw [div_le_iff hp]
      linarith
    have hceil := Int.le_ceil (c / (5 * gaugeMagnitude c))
    rw [hk] at hceil
    have hle : c ≤ roundUpToStep c (5 * gaugeMagnitude c) := by
      unfold roundUpToStep
      rw [hk]
      calc c = c / (5 * gaugeMagnitude c) * (5 * gaugeMagnitude c) := by field_simp
        _ ≤ (k:ℚ) * (5 * gaugeMagnitude c) :=
          mul_le_mul_of_nonneg_right hceil (le_of_lt hp)
    refine ⟨(k * 5).toNat, ?_, ?_, hle⟩
    · interval_cases k <;> decide
    · unfold roundUpToStep
      rw [hk]
      have hcast : (((k * 5).toNat : ℕ) : ℚ) = ((k * 5 : ℤ) : ℚ) := by
        exact_mod_cast congrArg Int.cast (Int.toNat_of_nonneg (by omega))
      rw [hcast]
      push_cast
      ring

theorem mult_fact1 :
    ∀ a ∈ niceMultipliers, ∀ b ∈ expandedMultipliers,
      ¬(24 * a < 25 * b ∧ b < a) := by decide

theorem mult_fact2 :
    ∀ a ∈ niceMultipliers, ∀ b ∈ expandedMultipliers,
      ¬(240 * a < 25 * b ∧ b < 10 * a) := by decide

/-- No expansion triggered above 80% of an invariant-shaped maximum can
land below that maximum. -/
theorem expand_ge (M c : ℚ) (j : ℤ) (nM : ℕ) (hmemM : nM ∈ niceMultipliers)
    (hMeq : M = (nM : ℚ) * (10:ℚ)^j) (hMc : M * (24/25) < c)
    (n : ℕ) (hmemn : n ∈ expandedMultipliers)
    (hReq : roundUpToStep c (niceStepFor c) = (n:ℚ) * gaugeMagnitude c)
    (hcR : c ≤ roundUpToStep c (niceStepFor c)) :
    M ≤ roundUpToStep c (niceStepFor c) := by
  by_contra hlt
  push_neg at hlt
  have hmagm : gaugeMagnitude c = (10:ℚ) ^ Int.log 10 (c / 5) := rfl
  obtain ⟨m, hmm⟩ : ∃ m : ℤ, Int.log 10 (c / 5) = m := ⟨_, rfl⟩
  rw [hReq, hmagm, hmm] at hlt
  have hMR : M * (24/25) < (n:ℚ) * (10:ℚ)^m := by
    rw [hReq, hmagm, hmm] at hcR
    linarith
  rw [hMeq] at hlt hMR
  have hBM : 1 ≤ nM ∧ nM ≤ 50 := by
    have hall : ∀ a ∈ niceMultipliers, 1 ≤ a ∧ a ≤ 50 := by decide
    exact hall nM hmemM
  have hBn : 5 ≤ n ∧ n ≤ 50 := by
    have hall : ∀ a ∈ expandedMultipliers, 5 ≤ a ∧ a ≤ 50 := by decide
    exact hall n hmemn
  have hpm : (0:ℚ) < (10:ℚ)^m := zpow_pos (by norm_num) _
  have hpj : (0:ℚ) < (10:ℚ)^j := zpow_pos (by norm_num) _
  have hcast5 : (5:ℚ) ≤ (n:ℚ) := by exact_mod_cast hBn.1
  have hcast50 : (n:ℚ) ≤ 50 := by exact_mod_cast hBn.2
  have hcastM1 : (1:ℚ) ≤ (nM:ℚ) := by exact_mod_cast hBM.1
  have hcastM50 : (nM:ℚ) ≤ 50 := by exact_mod_cast hBM.2
  have t1 : (5:ℚ) * (10:ℚ)^m ≤ (n:ℚ) * (10:ℚ)^m :=
    mul_le_mul_of_nonneg_right hcast5 (le_of_lt hpm)
  have t2 : (nM:ℚ) * (10:ℚ)^j ≤ 50 * (10:ℚ)^j :=
    mul_le_mul_of_nonneg_right hcastM50 (le_of_lt hpj)
  have t3 : (1:ℚ) * (10:ℚ)^j ≤ (nM:ℚ) * (10:ℚ)^j :=
    mul_le_mul_of_nonneg_right hcastM1 (le_of_lt hpj)
  have t4 : (n:ℚ) * (10:ℚ)^m ≤ 50 * (10:ℚ)^m :=
    mul_le_mul_of_nonneg_right hcast50 (le_of_lt hpm)
  have hmj : m ≤ j := by
    have h1 : (10:ℚ)^m < (10:ℚ)^(j+1) := by
      rw [zpow_add_one₀ (by norm_num : (10:ℚ) ≠ 0)]
      linarith
    have := (zpow_lt_zpow_iff_right₀ (by norm_num : (1:ℚ) < 10)).mp h1
    omega
  have hjm : j ≤ m + 1 := by
    have h1 : (10:ℚ)^j < (10:ℚ)^(m+2) := by
      rw [show m + 2 = (m+1)+1 from by ring,
        zpow_add_one₀ (by norm_num : (10:ℚ) ≠ 0),
        zpow_add_one₀ (by norm_num : (10:ℚ) ≠ 0)]
      linarith
    have := (zpow_lt_zpow_iff_right₀ (by norm_num : (1:ℚ) < 10)).mp h1
    omega
  have hcases : j = m ∨ j = m + 1 := by omega
  rcases hcases with hj | hj
  · rw [hj] at hlt hMR
    have hn_lt : (n:ℚ) < (nM:ℚ) := (mul_lt_mul_right hpm).mp hlt
    have h24 : (nM:ℚ) * (24/25) * (10:ℚ)^m < (n:ℚ) * (10:ℚ)^m := by linarith
    have h24' : (nM:ℚ) * (24/25) < (n:ℚ) := (mul_lt_mul_right hpm).mp h24
    have c1 : 24 * nM < 25 * n := by
      have : (24:ℚ) * nM < 25 * n := by linarith
      exact_mod_cast this
    have c2 : n < nM := by exact_mod_cast hn_lt
    exact mult_fact1 nM hmemM n hmemn ⟨c1, c2⟩
  · rw [hj] at hlt hMR
    rw [zpow_add_one₀ (by norm_num : (10:ℚ) ≠ 0)] at hlt hMR
    have hn_lt : (n:ℚ) < (nM:ℚ) * 10 := by
      have h' : (n:ℚ) * (10:ℚ)^m < (nM:ℚ) * 10 * (10:ℚ)^m := by linarith
      exact (mul_lt_mul_right hpm).mp h'
    have h24' : (nM:ℚ) * (48/5) < (n:ℚ) := by
      have h' : (nM:ℚ) * (48/5) * (10:ℚ)^m < (n:ℚ) * (10:ℚ)^m := by linarith
      exact (mul_lt_mul_right hpm).mp h'
    have c1 : 240 * nM < 25 * n := by
      have : (240:ℚ) * nM < 25 * n := by linarith
      exact_mod_cast this
    have c2 : n < 10 * nM := by
      have : (n:ℚ) < 10 * nM := by linarith
      exact_mod_cast this
    exact mult_fact2 nM hmemM n hmemn ⟨c1, c2⟩

/-- One `updateGauge` call never lowers the scale and preserves the
invariant. -/
theorem updateGaugeMax_mono_inv (M v : ℚ) (h : GaugeMaxInv M) :
    M ≤ updateGaugeMax M v ∧ GaugeMaxInv (updateGaugeMax M v) := by
  obtain ⟨j, nM, hmem, hMeq⟩ := h
  have hM1 : (1:ℚ) ≤ (nM:ℚ) := by
    have hall : ∀ a ∈ niceMultipliers, 1 ≤ a := by decide
    exact_mod_cast hall nM hmem
  have hpj : (0:ℚ) < (10:ℚ)^j := zpow_pos (by norm_num) _
  have hMpos : 0 < M := by rw [hMeq]; nlinarith
  unfold updateGaugeMax
  by_cases hcond : M * (8/10) < v
  · rw [if_pos hcond]
    have hvpos : 0 < v := by nlinarith
    have hcand : gaugeCandidate v = v * (12/10) := by
      unfold gaugeCandidate
      rw [if_pos hvpos]
    have hcpos : 0 < gaugeCandidate v := by rw [hcand]; positivity
    have hMC : M * (24/25) < gaugeCandidate v := by rw [hcand]; linarith
    obtain ⟨n, hn, hReq, hcR⟩ := roundUp_expand (gaugeCandidate v) hcpos
    refine ⟨expand_ge M _ j nM hmem hMeq hMC n hn hReq hcR,
      Int.log 10 (gaugeCandidate v / 5), n, List.mem_cons_of_mem _ hn, hReq⟩
  · rw [if_neg hcond]
    exact ⟨le_refl M, ⟨j, nM, hmem, hMeq⟩⟩

theorem runGauge_inv (init : ℚ) (hinit : GaugeMaxInv init) (samples : List ℚ) :
    GaugeMaxInv (runGauge init samples) := by
  unfold runGauge
  induction samples generalizing init with
  | nil => exact hinit
  | cons v vs ih =>
    exact ih (updateGaugeMax init v) (updateGaugeMax_mono_inv init v hinit).2

/-- C1 (amended): for every run started from one of the gauge's initial
scales, feeding one more sample never lowers the maximum, and when the
sample exceeds 80% of the current maximum the new maximum is exactly the
candidate (`value * 1.2`, or 1 for non-positive values) rounded up to the
step `niceStepFor` picks — the first of `{1,2,5} * 10^⌊log10(candidate/5)⌋`
keeping the quotient below 6, falling back to `5 * 10^⌊log10(candidate/5)⌋`
— and that rounded value is at least the previous maximum. -/
theorem C1_gauge_never_shrinks (init : ℚ) (hinit : GaugeMaxInv init)
    (samples : List ℚ) (v : ℚ) :
    runGauge init samples ≤ runGauge init (samples ++ [v]) ∧
    (runGauge init samples * (8/10) < v →
      runGauge init (samples ++ [v])
        = roundUpToStep (gaugeCandidate v) (niceStepFor (gaugeCandidate v)) ∧
      runGauge init samples
        ≤ roundUpToStep (gaugeCandidate v) (niceStepFor (gaugeCandidate v))) := by
  have hfold : runGauge init (samples ++ [v])
      = updateGaugeMax (runGauge init samples) v := by
    unfold runGauge
    rw [List.foldl_append]
    rfl
  have hinv := runGauge_inv init hinit samples
  have hstep := updateGaugeMax_mono_inv (runGauge init samples) v hinv
  refine ⟨hfold ▸ hstep.1, fun hc => ?_⟩
  have hform : updateGaugeMax (runGauge init samples) v
      = roundUpToStep (gaugeCandidate v) (niceStepFor (gaugeCandidate v)) := by
    unfold updateGaugeMax
    rw [if_pos hc]
  exact ⟨hfold.trans hform, hform ▸ (hfold ▸ hstep.1)⟩

/-- The initial scale for every display unit satisfies the invariant. -/
theorem initialMaxFor_inv (units : String) : GaugeMaxInv (initialMaxFor units) := by
  unfold initialMaxFor
  split_ifs
  · exact ⟨0, 1, by decide, by norm_num⟩
  · exact ⟨6, 1, by decide, by norm_num⟩
  · exact ⟨3, 1, by decide, by norm_num⟩

/-- C1 witness: from the Gbps initial scale 1, samples 10 then 500 drive
the maximum to 600, and a following 50 cannot lower it. -/
theorem C1_gauge_never_shrinks_witness :
    GaugeMaxInv (initialMaxFor "Gbps") ∧
    runGauge (initialMaxFor "Gbps") [10, 500]
      ≤ runGauge (initialMaxFor "Gbps") [10, 500, 50] :=
  ⟨initialMaxFor_inv "Gbps",
   (C1_gauge_never_shrinks (initialMaxFor "Gbps") (initialMaxFor_inv "Gbps")
      [10, 500] 50).1⟩

/-- A "nice" step in the spec's sense: 1, 2 or 5 times a power of ten. -/
def IsNiceStep (s : ℚ) : Prop :=
  ∃ k : ℤ, s = (10:ℚ)^k ∨ s = 2 * (10:ℚ)^k ∨ s = 5 * (10:ℚ)^k

theorem gaugeMagnitude_one (c : ℚ) (h1 : 5 ≤ c) (h2 : c < 50) :
    gaugeMagnitude c = 1 := by
  unfold gaugeMagnitude
  rw [int_log_ten_eq (c/5) 0 (by linarith)
    (by rw [zpow_zero]; linarith)
    (by rw [zero_add, zpow_one]; linarith)]
  exact zpow_zero 10

/-- Evaluation of one expanding `updateGauge` step through the loop's
fall-through (`step = 5 * magnitude`) path. -/
theorem updateGaugeMax_eval_fall (M v c mag R : ℚ)
    (hcond : M * (8/10) < v) (hv : 0 < v) (hc : v * (12/10) = c)
    (hmag : gaugeMagnitude c = mag)
    (h1 : ¬(c / (1 * mag) < 6)) (h2 : ¬(c / (2 * mag) < 6))
    (hR : roundUpToStep c (5 * mag) = R) :
    updateGaugeMax M v = R := by
  unfold updateGaugeMax
  rw [if_pos hcond]
  unfold gaugeCandidate
  rw [if_pos hv, hc]
  unfold niceStepFor
  rw [hmag, if_neg h1, if_neg h2, hR]

/-- C1 counterexample to the claim as stated: the reachable run 20, 23
from the Gbps initial scale 1 puts the maximum at 30; the next sample 28.3
(above 80% of 30) is rounded with step 5 to the new maximum 35, which
carries 7 labelled gradations — and 35 is not the candidate 33.96 rounded
up to ANY nice step whose label count stays below 6. -/
theorem C1_gradations_counterexample :
    runGauge (initialMaxFor "Gbps") [20, 23] = 30 ∧
    (30:ℚ) * (8/10) < 28.3 ∧
    updateGaugeMax 30 28.3 = 35 ∧
    gaugeNumLabels 35 (niceStepFor (gaugeCandidate 28.3)) = 7 ∧
    ¬ ∃ s : ℚ, IsNiceStep s ∧
        roundUpToStep (gaugeCandidate (28.3:ℚ)) s = 35 ∧
        gaugeNumLabels 35 s < 6 := by
  have hinit : initialMaxFor "Gbps" = 1 := by norm_num [initialMaxFor]
  have hstep1 : updateGaugeMax 1 20 = 25 := by
    refine updateGaugeMax_eval_fall 1 20 24 1 25 (by norm_num) (by norm_num)
      (by norm_num) (gaugeMagnitude_one 24 (by norm_num) (by norm_num))
      (by norm_num) (by norm_num) ?_
    unfold roundUpToStep
    rw [show (⌈(24:ℚ)/(5*1)⌉ : ℤ) = 5 from by norm_num [Int.ceil_eq_iff]]
    norm_num
  have hstep2 : updateGaugeMax 25 23 = 30 := by
    refine updateGaugeMax_eval_fall 25 23 (138/5) 1 30 (by norm_num) (by norm_num)
      (by norm_num) (gaugeMagnitude_one (138/5) (by norm_num) (by norm_num))
      (by norm_num) (by norm_num) ?_
    unfold roundUpToStep
    rw [show (⌈(138/5:ℚ)/(5*1)⌉ : ℤ) = 6 from by norm_num [Int.ceil_eq_iff]]
    norm_num
  have hcand : gaugeCandidate (28.3:ℚ) = 849/25 := by
    unfold gaugeCandidate
    rw [if_pos (by norm_num)]
    norm_num
  have hmag3 : gaugeMagnitude (849/25 : ℚ) = 1 :=
    gaugeMagnitude_one (849/25) (by norm_num) (by norm_num)
  have hstep3 : updateGaugeMax 30 28.3 = 35 := by
    refine updateGaugeMax_eval_fall 30 28.3 (849/25) 1 35 (by norm_num) (by norm_num)
      (by norm_num) hmag3 (by norm_num) (by norm_num) ?_
    unfold roundUpToStep
    rw [show (⌈(849/25:ℚ)/(5*1)⌉ : ℤ) = 7 from by norm_num [Int.ceil_eq_iff]]
    norm_num
  have hnice : niceStepFor (gaugeCandidate 28.3) = 5 := by
    rw [hcand]
    unfold niceStepFor
    rw [hmag3, if_neg (by norm_num), if_neg (by norm_num)]
    norm_num
  refine ⟨?_, by norm_num, hstep3, ?_, ?_⟩
  · show updateGaugeMax (updateGaugeMax (initialMaxFor "Gbps") 20) 23 = 30
    rw [hinit, hstep1, hstep2]
  · rw [hnice]
    unfold gaugeNumLabels
    rw [round_eq]
    rw [show (⌊(35:ℚ)/5 + 1/2⌋ : ℤ) = 7 from by norm_num [Int.floor_eq_iff]]
  · rintro ⟨s, ⟨k, hs⟩, hround, hlab⟩
    rw [hcand] at hround
    have hspos : 0 < s := by
      rcases hs with h | h | h <;> rw [h] <;> positivity
    have hlab' : (35:ℚ)/s < 11/2 := by
      unfold gaugeNumLabels at hlab
      rw [round_eq] at hlab
      have := Int.floor_lt.mp hlab
      push_cast at this
      linarith
    have hsgt : 70/11 < s := by
      rw [div_lt_iff hspos] at hlab'
      linarith
    have ht1 : (0:ℤ) < ⌈(849/25)/s⌉ := Int.ceil_pos.mpr (by positivity)
    have hsle : s ≤ 35 := by
      unfold roundUpToStep at hround
      have hc1 : (1:ℚ) ≤ ((⌈(849/25)/s⌉ : ℤ) : ℚ) := by exact_mod_cast ht1
      nlinarith [mul_le_mul_of_nonneg_right hc1 (le_of_lt hspos)]
    rcases hs with h | h | h
    · rw [h] at hsgt hsle hround
      have hk1 : 1 ≤ k := by
        have h0 : (10:ℚ)^(0:ℤ) < (10:ℚ)^k := by rw [zpow_zero]; linarith
        have := (zpow_lt_zpow_iff_right₀ (by norm_num : (1:ℚ) < 10)).mp h0
        omega
      have hk2 : k ≤ 1 := by
        have h0 : (10:ℚ)^k < (10:ℚ)^(2:ℤ) := by
          rw [show ((10:ℚ)^(2:ℤ)) = 100 from by norm_num]
          linarith
        have := (zpow_lt_zpow_iff_right₀ (by norm_num : (1:ℚ) < 10)).mp h0
        omega
      have hk : k = 1 := by omega
      rw [hk, show ((10:ℚ)^(1:ℤ)) = 10 from by norm_num] at hround
      unfold roundUpToStep at hround
      rw [show (⌈(849/25:ℚ)/10⌉ : ℤ) = 4 from by norm_num [Int.ceil_eq_iff]] at hround
      norm_num at hround
    · rw [h] at hsgt hsle hround
      have hk1 : 1 ≤ k := by
        have h0 : (10:ℚ)^(0:ℤ) < (10:ℚ)^k := by rw [zpow_zero]; linarith
        have := (zpow_lt_zpow_iff_right₀ (by norm_num : (1:ℚ) < 10)).mp h0
        omega
      have hk2 : k ≤ 1 := by
        have h0 : (10:ℚ)^k < (10:ℚ)^(2:ℤ) := by
          rw [show ((10:ℚ)^(2:ℤ)) = 100 from by norm_num]
          linarith
        have := (zpow_lt_zpow_iff_right₀ (by norm_num : (1:ℚ) < 10)).mp h0
        omega
      have hk : k = 1 := by omega
      rw [hk, show ((10:ℚ)^(1:ℤ)) = 10 from by norm_num] at hround
      unfold roundUpToStep at hround
      rw [show (⌈(849/25:ℚ)/(2*10)⌉ : ℤ) = 2 from by norm_num [Int.ceil_eq_iff]] at hround
      norm_num at hround
    · rw [h] at hsgt hsle
      have hk1 : 1 ≤ k := by
        have h0 : (10:ℚ)^(0:ℤ) < (10:ℚ)^k := by rw [zpow_zero]; linarith
        have := (zpow_lt_zpow_iff_right₀ (by norm_num : (1:ℚ) < 10)).mp h0
        omega
      have hk2 : k ≤ 0 := by
        have h0 : (10:ℚ)^k < (10:ℚ)^(1:ℤ) := by
          rw [show ((10:ℚ)^(1:ℤ)) = 10 from by norm_num]
          linarith
        have := (zpow_lt_zpow_iff_right₀ (by norm_num : (1:ℚ) < 10)).mp h0
        omega
      omega

/-! ## End of stream (C4) -/

/-- C4: a frame trimming to "-1" completes the run: mean of the collected
samples to two decimals ("0.00" with none), running maximum shown, status
Complete, stream released, gauge untouched.  The heartbeat / CMD /
100-120-110 / "-1" scenario ends at average "110.00 Mbps" and maximum
120. -/
theorem C4_end_marker (units : String) (st : Session) (data : String)
    (h : jsTrim data = "-1") :
    ((handleMessage units st data).status = "Complete" ∧
     (handleMessage units st data).avgText =
       (if 0 < st.bandwidthCount then toFixed2 (st.bandwidthSum / st.bandwidthCount)
        else "0.00") ++ " " ++ units ∧
     (handleMessage units st data).maxShown = some st.maxBandwidth ∧
     (handleMessage units st data).streamOpen = false ∧
     (handleMessage units st data).gauge = st.gauge) ∧
    ((runSession "Mbps" (initialSession "Mbps")
        ["ping", "CMD: iperf3 -c 192.168.10.2", "100 Mbits/sec", "120 Mbits/sec",
         "110 Mbits/sec", "-1"]).status = "Complete" ∧
     (runSession "Mbps" (initialSession "Mbps")
        ["ping", "CMD: iperf3 -c 192.168.10.2", "100 Mbits/sec", "120 Mbits/sec",
         "110 Mbits/sec", "-1"]).avgText = "110.00 Mbps" ∧
     (runSession "Mbps" (initialSession "Mbps")
        ["ping", "CMD: iperf3 -c 192.168.10.2", "100 Mbits/sec", "120 Mbits/sec",
         "110 Mbits/sec", "-1"]).maxShown = some 120 ∧
     (runSession "Mbps" (initialSession "Mbps")
        ["ping", "CMD: iperf3 -c 192.168.10.2", "100 Mbits/sec", "120 Mbits/sec",
         "110 Mbits/sec", "-1"]).gauge = ⟨1000, 110, true, false⟩) := by
  constructor
  · unfold handleMessage messageActions
    rw [h]
    unfold messageActionsCore
    rw [if_neg (show ¬(("-1":String) = "" ∨ ("-1":String) = "ping") from by decide)]
    rw [if_pos (show ("-1":String) = "-1" from rfl)]
    norm_num [cleanupActions, applyAction]
  · have e0 : initialSession "Mbps"
        = ⟨0, 0, 0, "Starting", "- Mbps", none, ["Running iPerf3..."],
            ⟨1000, 0, false, true⟩, true, false, true, true⟩ := by
      norm_num [initialSession, initialMaxFor, initGaugeState]
      decide
    have h1 : handleMessage "Mbps"
        ⟨0, 0, 0, "Starting", "- Mbps", none, ["Running iPerf3..."],
          ⟨1000, 0, false, true⟩, true, false, true, true⟩ "ping"
        = ⟨0, 0, 0, "Starting", "- Mbps", none, ["Running iPerf3..."],
            ⟨1000, 0, false, true⟩, true, false, true, true⟩ := by
      unfold handleMessage messageActions
      rw [show jsTrim "ping" = "ping" from by decide]
      unfold messageActionsCore
      rw [if_pos (show ("ping":String) = "" ∨ ("ping":String) = "ping" from Or.inr rfl)]
      norm_num [applyAction]
    have h2 : handleMessage "Mbps"
        ⟨0, 0, 0, "Starting", "- Mbps", none, ["Running iPerf3..."],
          ⟨1000, 0, false, true⟩, true, false, true, true⟩
        "CMD: iperf3 -c 192.168.10.2"
        = ⟨0, 0, 0, "Starting", "- Mbps", none,
            ["Running iPerf3...", "CMD: iperf3 -c 192.168.10.2"],
            ⟨1000, 0, false, true⟩, true, false, true, true⟩ := by
      unfold handleMessage messageActions
      rw [show jsTrim "CMD: iperf3 -c 192.168.10.2"
          = "CMD: iperf3 -c 192.168.10.2" from by decide]
      unfold messageActionsCore
      rw [if_neg (show ¬(("CMD: iperf3 -c 192.168.10.2":String) = ""
        ∨ ("CMD: iperf3 -c 192.168.10.2":String) = "ping") from by decide)]
      rw [if_neg (show ("CMD: iperf3 -c 192.168.10.2":String) ≠ "-1" from by decide)]
      rw [if_neg (show ("CMD: iperf3 -c 192.168.10.2":String) ≠ "server is busy" from by decide)]
      rw [if_pos (show (startsWithStr "CMD: iperf3 -c 192.168.10.2" "CMD:"
        || startsWithStr "CMD: iperf3 -c 192.168.10.2" "WORKER:"
        || startsWithStr "CMD: iperf3 -c 192.168.10.2" "LOGFILE:") = true from by decide)]
      norm_num [applyAction]
    have hex100 : extractBandwidth "100 Mbits/sec" "Mbps" = some 100 := by
      unfold extractBandwidth
      rw [show trimChars "100 Mbits/sec".toList
          = '1' :: '0' :: '0' :: ' ' :: 'M' :: 'b' :: 'i' :: 't' :: 's' :: '/' :: 's' :: 'e' :: 'c'::[] from by decide]
      rw [if_neg (by decide)]
      have hm : matchAt ('1' :: '0' :: '0' :: ' ' :: 'M' :: 'b' :: 'i' :: 't' :: 's' :: '/' :: 's' :: 'e' :: 'c'::[])
          = some (⟨['1','0','0'], some 'M'⟩, []) := by decide
      rw [scanMatches_cons_some hm, scanMatches_nil]
      simp only [List.getLast?, Option.getD]
      simp [parseDecimal, natOfDigits, digitVal, toSelectedUnits, upperChar]
    have hex120 : extractBandwidth "120 Mbits/sec" "Mbps" = some 120 := by
      unfold extractBandwidth
      rw [show trimChars "120 Mbits/sec".toList
          = '1' :: '2' :: '0' :: ' ' :: 'M' :: 'b' :: 'i' :: 't' :: 's' :: '/' :: 's' :: 'e' :: 'c'::[] from by decide]
      rw [if_neg (by decide)]
      have hm : matchAt ('1' :: '2' :: '0' :: ' ' :: 'M' :: 'b' :: 'i' :: 't' :: 's' :: '/' :: 's' :: 'e' :: 'c'::[])
          = some (⟨['1','2','0'], some 'M'⟩, []) := by decide
      rw [scanMatches_cons_some hm, scanMatches_nil]
      simp only [List.getLast?, Option.getD]
      simp [parseDecimal, natOfDigits, digitVal, toSelectedUnits, upperChar]
    have hex110 : extractBandwidth "110 Mbits/sec" "Mbps" = some 110 := by
      unfold extractBandwidth
      rw [show trimChars "110 Mbits/sec".toList
          = '1' :: '1' :: '0' :: ' ' :: 'M' :: 'b' :: 'i' :: 't' :: 's' :: '/' :: 's' :: 'e' :: 'c'::[] from by decide]
      rw [if_neg (by decide)]
      have hm : matchAt ('1' :: '1' :: '0' :: ' ' :: 'M' :: 'b' :: 'i' :: 't' :: 's' :: '/' :: 's' :: 'e' :: 'c'::[])
          = some (⟨['1','1','0'], some 'M'⟩, []) := by decide
      rw [scanMatches_cons_some hm, scanMatches_nil]
      simp only [List.getLast?, Option.getD]
      simp [parseDecimal, natOfDigits, digitVal, toSelectedUnits, upperChar]
    have h3 : handleMessage "Mbps"
        ⟨0, 0, 0, "Starting", "- Mbps", none,
          ["Running iPerf3...", "CMD: iperf3 -c 192.168.10.2"],
          ⟨1000, 0, false, true⟩, true, false, true, true⟩ "100 Mbits/sec"
        = ⟨100, 1, 100, "Running", "- Mbps", none,
            ["Running iPerf3...", "CMD: iperf3 -c 192.168.10.2", "100 Mbits/sec"],
            ⟨1000, 100, true, false⟩, true, false, true, true⟩ := by
      unfold handleMessage messageActions
      rw [show jsTrim "100 Mbits/sec" = "100 Mbits/sec" from by decide]
      unfold messageActionsCore
      rw [if_neg (show ¬(("100 Mbits/sec":String) = ""
        ∨ ("100 Mbits/sec":String) = "ping") from by decide)]
      rw [if_neg (show ("100 Mbits/sec":String) ≠ "-1" from by decide)]
      rw [if_neg (show ("100 Mbits/sec":String) ≠ "server is busy" from by decide)]
      rw [if_neg (show ¬((startsWithStr "100 Mbits/sec" "CMD:"
        || startsWithStr "100 Mbits/sec" "WORKER:"
        || startsWithStr "100 Mbits/sec" "LOGFILE:") = true) from by decide)]
      rw [hex100]
      norm_num [applyAction, updateGauge, updateGaugeMax]
    have h4 : handleMessage "Mbps"
        ⟨100, 1, 100, "Running", "- Mbps", none,
          ["Running iPerf3...", "CMD: iperf3 -c 192.168.10.2", "100 Mbits/sec"],
          ⟨1000, 100, true, false⟩, true, false, true, true⟩ "120 Mbits/sec"
        = ⟨220, 2, 120, "Running", "- Mbps", none,
            ["Running iPerf3...", "CMD: iperf3 -c 192.168.10.2", "100 Mbits/sec",
             "120 Mbits/sec"],
            ⟨1000, 120, true, false⟩, true, false, true, true⟩ := by
      unfold handleMessage messageActions
      rw [show jsTrim "120 Mbits/sec" = "120 Mbits/sec" from by decide]
      unfold messageActionsCore
      rw [if_neg (show ¬(("120 Mbits/sec":String) = ""
        ∨ ("120 Mbits/sec":String) = "ping") from by decide)]
      rw [if_neg (show ("120 Mbits/sec":String) ≠ "-1" from by decide)]
      rw [if_neg (show ("120 Mbits/sec":String) ≠ "server is busy" from by decide)]
      rw [if_neg (show ¬((startsWithStr "120 Mbits/sec" "CMD:"
        || startsWithStr "120 Mbits/sec" "WORKER:"
        || startsWithStr "120 Mbits/sec" "LOGFILE:") = true) from by decide)]
      rw [hex120]
      norm_num [applyAction, updateGauge, updateGaugeMax]
    have h5 : handleMessage "Mbps"
        ⟨220, 2, 120, "Running", "- Mbps", none,
          ["Running iPerf3...", "CMD: iperf3 -c 192.168.10.2", "100 Mbits/sec",
           "120 Mbits/sec"],
          ⟨1000, 120, true, false⟩, true, false, true, true⟩ "110 Mbits/sec"
        = ⟨330, 3, 120, "Running", "- Mbps", none,
            ["Running iPerf3...", "CMD: iperf3 -c 192.168.10.2", "100 Mbits/sec",
             "120 Mbits/sec", "110 Mbits/sec"],
            ⟨1000, 110, true, false⟩, true, false, true, true⟩ := by
      unfold handleMessage messageActions
      rw [show jsTrim "110 Mbits/sec" = "110 Mbits/sec" from by decide]
      unfold messageActionsCore
      rw [if_neg (show ¬(("110 Mbits/sec":String) = ""
        ∨ ("110 Mbits/sec":String) = "ping") from by decide)]
      rw [if_neg (show ("110 Mbits/sec":String) ≠ "-1" from by decide)]
      rw [if_neg (show ("110 Mbits/sec":String) ≠ "server is busy" from by decide)]
      rw [if_neg (show ¬((startsWithStr "110 Mbits/sec" "CMD:"
        || startsWithStr "110 Mbits/sec" "WORKER:"
        || startsWithStr "110 Mbits/sec" "LOGFILE:") = true) from by decide)]
      rw [hex110]
      norm_num [applyAction, updateGauge, updateGaugeMax]
    have havg110 : toFixed2 (110:ℚ) = "110.00" := by
      unfold toFixed2
      rw [show (⌊(110:ℚ) * 100 + 1/2⌋ : ℤ) = 11000 from by norm_num [Int.floor_eq_iff]]
      decide
    have happ : "110.00" ++ " " ++ "Mbps" = "110.00 Mbps" := by decide
    have h6 : handleMessage "Mbps"
        ⟨330, 3, 120, "Running", "- Mbps", none,
          ["Running iPerf3...", "CMD: iperf3 -c 192.168.10.2", "100 Mbits/sec",
           "120 Mbits/sec", "110 Mbits/sec"],
          ⟨1000, 110, true, false⟩, true, false, true, true⟩ "-1"
        = ⟨330, 3, 120, "Complete", "110.00 Mbps", some 120,
            ["Running iPerf3...", "CMD: iperf3 -c 192.168.10.2", "100 Mbits/sec",
             "120 Mbits/sec", "110 Mbits/sec"],
            ⟨1000, 110, true, false⟩, false, true, false, false⟩ := by
      unfold handleMessage messageActions
      rw [show jsTrim "-1" = "-1" from by decide]
      unfold messageActionsCore
      rw [if_neg (show ¬(("-1":String) = "" ∨ ("-1":String) = "ping") from by decide)]
      rw [if_pos (show ("-1":String) = "-1" from rfl)]
      norm_num [cleanupActions, applyAction, havg110, happ]
    unfold runSession
    simp only [List.foldl]
    rw [e0, h1, h2, h3, h4, h5, h6]
    exact ⟨rfl, rfl, rfl, rfl⟩

/-- C4 witness: the general clause applied at the scenario's final
frame. -/
theorem C4_end_marker_witness :
    (handleMessage "Mbps" (initialSession "Mbps") "-1").status = "Complete" ∧
    (runSession "Mbps" (initialSession "Mbps")
        ["ping", "CMD: iperf3 -c 192.168.10.2", "100 Mbits/sec", "120 Mbits/sec",
         "110 Mbits/sec", "-1"]).avgText = "110.00 Mbps" :=
  ⟨(C4_end_marker "Mbps" (initialSession "Mbps") "-1" (by decide)).1.1,
   (C4_end_marker "Mbps" (initialSession "Mbps") "-1" (by decide)).2.2.1⟩

end LanTool
